import Mathlib

/-!
Shallow embedding of the semantic-analysis core of cfn-lint:
`src/cfnlint/context/context.py` (Context, ContextManager, symbol entities,
pseudo-parameter resolver, ForEach macro expansion) and
`src/cfnlint/rules/functions/_BaseFn.py` (the shared intrinsic-function
validate/resolve engine).

Python values flowing through this core (template fragments, candidate
values, dict keys) are modelled by the inductive `JValue`; Python dicts are
insertion-ordered association lists; generators are modelled as the list of
values they yield paired with an optional terminal exception
(`List _ × Option String`); functions that can raise before yielding return
`Except String _`.  Mutable aliased state (the `path` deque and the
`ref_values` dict of a `Context`) is modelled by an explicit `Store` of
addressed cells, so that frame properties of `Context.evolve` are real
statements about aliasing rather than artifacts of a pure model.
-/

namespace CfnLint

/-- A Python/JSON value as it occurs in parsed templates: strings, integers,
booleans, None, lists and (insertion-ordered) dicts. -/
inductive JValue where
  | str (s : String)
  | int (n : Int)
  | bool (b : Bool)
  | null
  | arr (xs : List JValue)
  | obj (kvs : List (String × JValue))
deriving Repr

/-- Python truthiness of a `JValue` (`if value:`). -/
def truthyJ : JValue → Bool
  | .str s => s ≠ ""
  | .int n => n ≠ 0
  | .bool b => b
  | .null => false
  | .arr xs => !xs.isEmpty
  | .obj kvs => !kvs.isEmpty

/-- Is the value a Python dict (mapping)? -/
def JValue.isObj : JValue → Bool
  | .obj _ => true
  | _ => false

/-- Python `repr` of a plain string without quotes or escapes inside
(the only kind occurring in this core): wrap in single quotes. -/
def reprQ (s : String) : String := "'" ++ s ++ "'"

mutual

/-- Python `repr` of a `JValue` (as used in f-string `{x!r}` interpolations
of the source's error messages). -/
def reprJ : JValue → String
  | .str s => reprQ s
  | .int n => toString n
  | .bool b => if b then "True" else "False"
  | .null => "None"
  | .arr xs => "[" ++ String.intercalate ", " (reprJList xs) ++ "]"
  | .obj kvs => "\x7b" ++ String.intercalate ", " (reprJPairs kvs) ++ "\x7d"

def reprJList : List JValue → List String
  | [] => []
  | x :: xs => reprJ x :: reprJList xs

def reprJPairs : List (String × JValue) → List String
  | [] => []
  | (k, v) :: kvs => (reprQ k ++ ": " ++ reprJ v) :: reprJPairs kvs

end

/-- Python `repr` of a list of strings, as produced by
interpolating `list(instance.keys())`. -/
def reprKeys (ks : List String) : String :=
  "[" ++ String.intercalate ", " (ks.map reprQ) ++ "]"

/-- Fueled worker for `strReplace`. -/
def replaceAllAux : Nat → List Char → List Char → List Char → List Char
  | 0, s, _, _ => s
  | _ + 1, [], _, _ => []
  | n + 1, c :: rest, pat, repl =>
    if pat.isPrefixOf (c :: rest) then
      repl ++ replaceAllAux n (List.drop pat.length (c :: rest)) pat repl
    else
      c :: replaceAllAux n rest pat repl

/-- Python `str.replace`: replace every non-overlapping occurrence of `pat`
in `s` by `repl`, scanning left to right. -/
def strReplace (s pat repl : String) : String :=
  ⟨replaceAllAux (s.data.length + 1) s.data pat.data repl.data⟩

/-- Python `str.startswith` over the character lists. -/
def strStartsWith (s pre : String) : Bool :=
  pre.data.isPrefixOf s.data

/-- Worker for `strContains`: does the needle occur at any position? -/
def containsAux : List Char → List Char → Bool
  | [], n => n.isEmpty
  | c :: rest, n => n.isPrefixOf (c :: rest) || containsAux rest n

/-- Does `hay` contain `needle` as a substring? -/
def strContains (hay needle : String) : Bool :=
  containsAux hay.data needle.data

/-- Update one key of an insertion-ordered dict (Python `d[k] = v`):
replace the first binding of `k` in place, else append at the end. -/
def updateKey : List (String × JValue) → String → JValue → List (String × JValue)
  | [], k, v => [(k, v)]
  | (k', v') :: rest, k, v =>
    if k' = k then (k, v) :: rest else (k', v') :: updateKey rest k v

/-- Python `dict.update`: apply every binding of `ov` in order. -/
def updateAll (m ov : List (String × JValue)) : List (String × JValue) :=
  ov.foldl (fun acc kv => updateKey acc kv.1 kv.2) m

/-- Membership / lookup of a `JValue` key in a string-keyed dict
(Python `v in d` and `d[v]`): only a string value can match. -/
def lookupJ (v : JValue) (m : List (String × JValue)) : Option JValue :=
  match v with
  | .str s => m.lookup s
  | _ => none

/-- Python `d.get(k, default)` for a string-keyed dict. -/
def getD (m : List (String × JValue)) (k : String) (default : JValue) : JValue :=
  (m.lookup k).getD default

/-- The partition for a region (`_get_partition`,
src/cfnlint/context/context.py lines 174-180). -/
def getPartition (region : String) : String :=
  if region = "us-gov-east-1" ∨ region = "us-gov-west-1" then "aws-us-gov"
  else if region = "cn-north-1" ∨ region = "cn-northwest-1" then "aws-cn"
  else "aws"

/-- The sample value of a pseudo parameter (`_get_pseudo_value`,
src/cfnlint/context/context.py lines 149-171); Python returns `None`
implicitly for an unrecognised name, indistinguishable from the explicit
`None` of `AWS::NoValue`. -/
def getPseudoValue (parameter : String) (region : String) : JValue :=
  if parameter = "AWS::AccountId" then .str "123456789012"
  else if parameter = "AWS::NotificationARNs" then
    .arr [.str ("arn:" ++ getPartition region ++ ":sns:" ++ region
      ++ ":123456789012:notification")]
  else if parameter = "AWS::NoValue" then .null
  else if parameter = "AWS::Partition" then .str (getPartition region)
  else if parameter = "AWS::Region" then .str region
  else if parameter = "AWS::StackId" then
    .str ("arn:" ++ getPartition region ++ ":cloudformation:" ++ region
      ++ ":123456789012:stack/teststack/51af3dc0-da77-11e4-872e-1234567db123")
  else if parameter = "AWS::StackName" then .str "teststack"
  else if parameter = "AWS::URLSuffix" then
    if region = "cn-north-1" ∨ region = "cn-northwest-1" then
      .str "amazonaws.com.cn"
    else .str "amazonaws.com"
  else .null

/-- Modelled from the spec: `cfnlint.helpers.PSEUDOPARAMS` is imported by
context.py but its module is not part of the analysed source.  The spec's
pseudo-parameter resolver section enumerates the recognised names in this
order: AccountId, NotificationARNs, NoValue, Partition, Region, StackId,
StackName, URLSuffix. -/
def PSEUDOPARAMS : List String :=
  ["AWS::AccountId", "AWS::NotificationARNs", "AWS::NoValue",
   "AWS::Partition", "AWS::Region", "AWS::StackId", "AWS::StackName",
   "AWS::URLSuffix"]

/-- Construction of the `Transforms` dataclass
(src/cfnlint/context/context.py lines 16-31): `None` gives the empty list, a
single string is wrapped, a list must contain only strings — a non-string
element raises `ValueError("Transform must be a string")`. -/
def mkTransforms : JValue → Except String (List String)
  | .null => .ok []
  | .str s => .ok [s]
  | .arr xs =>
    xs.foldlM (fun acc x =>
      match x with
      | JValue.str s => .ok (acc ++ [s])
      | _ => .error "Transform must be a string") []
  | v => .ok [reprJ v] -- unreachable for the inputs this core passes in

/-- Heap of the mutable cells a `Context` can alias: `path` deques and
`ref_values` dicts, addressed by index. -/
structure Store where
  paths : List (List String)
  maps : List (List (String × JValue))

def Store.allocPath (st : Store) (p : List String) : Store × Nat :=
  ({ st with paths := st.paths ++ [p] }, st.paths.length)

def Store.allocMap (st : Store) (m : List (String × JValue)) : Store × Nat :=
  ({ st with maps := st.maps ++ [m] }, st.maps.length)

def Store.getPath (st : Store) (a : Nat) : List String := st.paths.getD a []

def Store.getMap (st : Store) (a : Nat) : List (String × JValue) := st.maps.getD a []

def Store.setMap (st : Store) (a : Nat) (m : List (String × JValue)) : Store :=
  { st with maps := st.maps.set a m }

/-- The mutable-state part of a `Context`
(src/cfnlint/context/context.py lines 38-95): the fields the claims are
about, with `path` and `ref_values` held by reference into a `Store`. -/
structure CtxS where
  region : String
  pathAddr : Nat
  refAddr : Nat

/-- The `__post_init__` write into `ref_values`
(src/cfnlint/context/context.py lines 92-95): for every pseudo parameter,
`self.ref_values[p] = [_get_pseudo_value(p, self.region)]`. -/
def pseudoRefUpdate (m : List (String × JValue)) (region : String) :
    List (String × JValue) :=
  PSEUDOPARAMS.foldl (fun acc p => updateKey acc p (.arr [getPseudoValue p region])) m

/-- Constructing a root `Context`: the dataclass `__init__` stores the given
`path` and `ref_values` objects, then `__post_init__` writes the pseudo
parameters into the `ref_values` dict. -/
def mkContext (st : Store) (region : String) (path0 : List String)
    (ref0 : List (String × JValue)) : Store × CtxS :=
  let (st1, pa) := st.allocPath path0
  let (st2, ra) := st1.allocMap ref0
  let st3 := st2.setMap ra (pseudoRefUpdate (st2.getMap ra) region)
  (st3, ⟨region, pa, ra⟩)

/-- `Context.evolve` (src/cfnlint/context/context.py lines 97-119): `path`
is always a fresh copy (with the override appended as one segment when
supplied); `ref_values` is a fresh copy merged with the override when one is
supplied, otherwise the parent's dict is passed through *by reference* via
`kwargs.setdefault`; every other field defaults to the parent's value.  The
new dataclass then runs `__post_init__`, which writes the pseudo parameters
(for the possibly overridden region) into the child's `ref_values` dict. -/
def Context.evolve (st : Store) (c : CtxS) (pathOv : Option String)
    (refOv : Option (List (String × JValue))) (regionOv : Option String) :
    Store × CtxS :=
  let newPath :=
    match pathOv with
    | some seg => st.getPath c.pathAddr ++ [seg]
    | none => st.getPath c.pathAddr
  let (st1, pa) := st.allocPath newPath
  let (st2, ra) :=
    match refOv with
    | some ov => st1.allocMap (updateAll (st1.getMap c.refAddr) ov)
    | none => (st1, c.refAddr)
  let region := regionOv.getD c.region
  let st3 := st2.setMap ra (pseudoRefUpdate (st2.getMap ra) region)
  (st3, ⟨region, pa, ra⟩)

/-- The `Parameter` entity (src/cfnlint/context/context.py lines 198-226);
an absent template field is Python `None`, i.e. `JValue.null`. -/
structure Parameter where
  type : String
  default : JValue
  allowed_values : JValue
  description : JValue
deriving Repr

/-- `Parameter.__post_init__`: `Type` must be present and a string, else
`ValueError`; a non-dict input raises `AttributeError` at `.get`. -/
def Parameter.ofJson : JValue → Except String Parameter
  | .obj kvs =>
    match getD kvs "Type" .null with
    | .str t =>
      .ok ⟨t, getD kvs "Default" .null, getD kvs "AllowedValues" .null,
           getD kvs "Description" .null⟩
    | _ => .error "ValueError"
  | _ => .error "AttributeError"

/-- `Parameter.ref` (src/cfnlint/context/context.py lines 221-226): yield
the default if *truthy*, then iterate `allowed_values` if *truthy*.
Iterating a Python value that is not a list yields its chars (string), its
keys (dict) or raises `TypeError`. -/
def Parameter.ref (p : Parameter) : List JValue × Option String :=
  let d := if truthyJ p.default then [p.default] else []
  if truthyJ p.allowed_values then
    match p.allowed_values with
    | .arr xs => (d ++ xs, none)
    | .str s => (d ++ s.data.map (fun ch => JValue.str ⟨[ch]⟩), none)
    | .obj kvs => (d ++ kvs.map (fun kv => JValue.str kv.1), none)
    | _ => (d, some "TypeError")
  else (d, none)

/-- The `Resource` entity (src/cfnlint/context/context.py lines 229-250). -/
structure Resource where
  type : String
deriving Repr

/-- `Resource.__post_init__`: `Type` must be present and a string. -/
def Resource.ofJson : JValue → Except String Resource
  | .obj kvs =>
    match getD kvs "Type" .null with
    | .str t => .ok ⟨t⟩
    | _ => .error "ValueError"
  | _ => .error "AttributeError"

/-- Modelled from the spec: `Context.fn_find_in_map` is called by
`Context.fn_value` but is not defined anywhere in the analysed source; the
spec says only that `Fn::FindInMap` "delegates to a find-in-map resolution
step".  It is modelled as an arbitrary delegation producing some yielded
values and possibly a terminal exception. -/
def FindInMapDelegate : Type := JValue → List JValue × Option String

/-- `Context.fn_value` (src/cfnlint/context/context.py lines 129-146) as the
sequence of values the generator yields paired with the exception, if any,
raised while consuming it.  A mapping without exactly one key raises
`ValueError`; for `Ref` the branch yields (from `ref_values` and/or the
parameter's candidates) and returns; the `Fn::FindInMap` branch delegates
but does *not* return, falling through into
`raise ValueError(f"Unsupported value {v!r}")`, which any other key reaches
directly. -/
def fnValue (refValues : List (String × JValue))
    (params : List (String × Parameter)) (fim : FindInMapDelegate)
    (inst : List (String × JValue)) : List JValue × Option String :=
  match inst with
  | [(k, v)] =>
    if k = "Ref" then
      let y1 := match lookupJ v refValues with
        | some val => [val]
        | none => []
      match v with
      | .str s =>
        (match params.lookup s with
         | some p =>
           let (ys, e) := p.ref
           (y1 ++ ys, e)
         | none => (y1, none))
      | _ => (y1, none)
    else if k = "Fn::FindInMap" then
      let (ys, e) := fim v
      match e with
      | some err => (ys, some err)
      | none => (ys, some ("Unsupported value " ++ reprJ v))
    else
      ([], some ("Unsupported value " ++ reprJ v))
  | _ =>
    ([], some ("Fn::Value can only have one key, got: "
               ++ reprKeys (inst.map Prod.fst)))

/-- Python tuple-unpacking of a string into two variables
(`id, iteration = key`): succeeds exactly for a 2-character string,
otherwise raises `ValueError`. -/
def unpack2 (s : String) : Option (Char × Char) :=
  match s.data with
  | [a, b] => some (a, b)
  | _ => none

/-- Match the tail of the regex pattern after the identifier: an optional
whitespace character then a closing brace. -/
def matchClose : List Char → Option (List Char)
  | '}' :: rs => some rs
  | c :: '}' :: rs => if c.isWhitespace then some rs else none
  | _ => none

/-- Match the identifier literally, then the pattern tail. -/
def matchIdClose (idc rest : List Char) : Option (List Char) :=
  if idc.isPrefixOf rest then matchClose (rest.drop idc.length) else none

/-- Match the regex pattern `\$\{\s?id\s?\}` at the head of the input
(with the greedy-then-backtrack semantics of `\s?`), returning the
remaining input after the match. -/
def matchPat (idc : List Char) : List Char → Option (List Char)
  | '$' :: '{' :: rest =>
    (match rest with
     | c :: rs =>
       if c.isWhitespace then
         (matchIdClose idc rs).orElse (fun _ => matchIdClose idc rest)
       else matchIdClose idc rest
     | [] => none)
  | _ => none

/-- Fueled worker for `reSub`: replace every non-overlapping match of the
pattern, scanning left to right. -/
def reSubAux : Nat → List Char → List Char → List Char → List Char
  | 0, s, _, _ => s
  | _ + 1, [], _, _ => []
  | n + 1, c :: rest, idc, repl =>
    match matchPat idc (c :: rest) with
    | some rs => repl ++ reSubAux n rs idc repl
    | none => c :: reSubAux n rest idc repl

/-- `re.sub(rf"\$\x7b\s?{id}\s?\x7d", repl, k)` as used by
`ContextManager._expand_foreach` (src/cfnlint/context/context.py line 309). -/
def reSub (id repl k : String) : String :=
  ⟨reSubAux (k.data.length + 1) k.data id.data repl.data⟩

/-- The key-substitution loop of `_expand_foreach`
(src/cfnlint/context/context.py lines 308-309): `for id, iteration in
values:` iterates the binding dict, which yields its *keys*; each key (the
loop identifier string) is then tuple-unpacked into the two loop variables,
so a 2-character identifier "Id" binds id='I', iteration='d', and any other
identifier length raises `ValueError` (outside the `try`).  `none` models
that uncaught `ValueError`. -/
def substKey : List (String × JValue) → String → Option String
  | [], k => some k
  | (bk, _) :: rest, k =>
    match unpack2 bk with
    | none => none
    | some (a, b) => substKey rest (reSub ⟨[a]⟩ ⟨[b]⟩ k)

/-- Python `len(v)`: defined for lists, strings and dicts, `TypeError`
otherwise. -/
def pyLen : JValue → Option Nat
  | .arr xs => some xs.length
  | .str s => some s.data.length
  | .obj kvs => some kvs.length
  | _ => none

/-- Python `v[i]` for a small integer index. -/
def pyIndex : JValue → Nat → Except String JValue
  | .arr xs, i =>
    match xs[i]? with
    | some x => .ok x
    | none => .error "IndexError"
  | .str s, i =>
    match s.data[i]? with
    | some c => .ok (.str ⟨[c]⟩)
    | none => .error "IndexError"
  | .obj _, _ => .error "KeyError"
  | _, _ => .error "TypeError"

/-- Python `v[0], v[1], v[2]`. -/
def pyIndex3 (v : JValue) : Except String (JValue × JValue × JValue) := do
  let a ← pyIndex v 0
  let b ← pyIndex v 1
  let c ← pyIndex v 2
  return (a, b, c)

/-- Python `for x in v`: the sequence of iterates (list elements, string
characters, dict keys), `TypeError` for non-iterables. -/
def pyIter : JValue → Except String (List JValue)
  | .arr xs => .ok xs
  | .str s => .ok (s.data.map (fun c => JValue.str ⟨[c]⟩))
  | .obj kvs => .ok (kvs.map (fun kv => JValue.str kv.1))
  | _ => .error "TypeError"

/-- The three interleaved activities of the `_expand_foreach` generator:
expanding one instance, walking its entry list, and iterating a ForEach
collection.  A single fueled interpreter over these keeps the recursion
structural (on the fuel) so that concrete runs reduce definitionally. -/
inductive EJob where
  | forEach (inst : JValue) (values : List (String × JValue))
  | entries (es : List (String × JValue)) (values : List (String × JValue))
  | items (idStr : String) (output : JValue) (its : List JValue)

/-- `ContextManager._expand_foreach`
(src/cfnlint/context/context.py lines 304-326) as the pairs the generator
yields plus an optional terminal exception.  A non-mapping instance raises
`AttributeError` at `.items()`.  Per entry: substitute the bound loop
variables into the key (possibly raising an uncaught `ValueError`, line
308); inside the `try`, a `Fn::ForEach::` key of the wrong shape is
silently skipped, a well-shaped one recurses per collection item with a
fresh binding dict holding only the innermost identifier; a `ValueError`
escaping the recursion is caught by the entry's `except` and the loop
continues; any other exception propagates.  Fuel exhaustion stands for
Python's recursion limit. -/
def expandRun : Nat → EJob → List (String × JValue) × Option String
  | 0, _ => ([], some "RecursionError")
  | f + 1, .forEach inst values =>
    (match inst with
     | .obj kvs => expandRun f (.entries kvs values)
     | _ => ([], some "AttributeError"))
  | _ + 1, .entries [] _ => ([], none)
  | f + 1, .entries ((k, v) :: rest) values =>
    (match substKey values k with
     | none => ([], some "ValueError")
     | some k1 =>
       if strStartsWith k1 "Fn::ForEach::" then
         match pyLen v with
         | none => ([], some "TypeError")
         | some n =>
           if n = 3 then
             match pyIndex3 v with
             | .error e => ([], some e)
             | .ok (idv, collection, output) =>
               match idv with
               | .str idStr =>
                 if output.isObj then
                   match pyIter collection with
                   | .error e => ([], some e)
                   | .ok its =>
                     let (ys, e) := expandRun f (.items idStr output its)
                     match e with
                     | some err =>
                       if err = "ValueError" then
                         let (ys2, e2) := expandRun f (.entries rest values)
                         (ys ++ ys2, e2)
                       else (ys, some err)
                     | none =>
                       let (ys2, e2) := expandRun f (.entries rest values)
                       (ys ++ ys2, e2)
                 else expandRun f (.entries rest values)
               | _ => expandRun f (.entries rest values)
           else expandRun f (.entries rest values)
       else
         let (ys2, e2) := expandRun f (.entries rest values)
         ((k1, v) :: ys2, e2))
  | _ + 1, .items _ _ [] => ([], none)
  | f + 1, .items idStr output (item :: its) =>
    let (ys, e) := expandRun f (.forEach output [(idStr, item)])
    match e with
    | some err => (ys, some err)
    | none =>
      let (ys2, e2) := expandRun f (.items idStr output its)
      (ys ++ ys2, e2)

/-- Entry point of the expansion pass. -/
def expandForeach (fuel : Nat) (inst : JValue) (values : List (String × JValue)) :
    List (String × JValue) × Option String :=
  expandRun fuel (.forEach inst values)

/-- Recursion allowance for the fixed entry points; Python's own recursion
limit plays the same role. -/
def FUEL : Nat := 1000

/-- Index one expanded section, constructing an entity per pair
(`self.parameters[k] = Parameter(v)` and friends): the built prefix up to
the first construction failure, plus a flag marking such a failure (always
a `ValueError`/`AttributeError`, hence always caught at section level). -/
def buildSection {α : Type} (mk : JValue → Except String α) :
    List (String × JValue) → List (String × α) × Bool
  | [] => ([], false)
  | (k, v) :: rest =>
    match mk v with
    | .ok a =>
      let (bs, fl) := buildSection mk rest
      ((k, a) :: bs, fl)
    | .error _ => ([], true)

/-- Exceptions caught by the per-section `except (ValueError,
AttributeError)` in `ContextManager.__post_init__`. -/
def sectionCaught (e : String) : Bool :=
  e = "ValueError" ∨ e = "AttributeError"

/-- One `self._init_<section>` call wrapped in its `try/except`
(src/cfnlint/context/context.py lines 290-302, 328-334, 342-344): the
entries indexed before any failure, plus an error only when an *uncatchable*
exception escapes the section.  A construction failure abandons the
expansion generator, so a terminal expansion exception only surfaces when
every pair was indexed. -/
def initSection {α : Type} (mk : JValue → Except String α) (sec : JValue) :
    List (String × α) × Option String :=
  let (pairs, expErr) := expandForeach FUEL sec []
  let (built, failed) := buildSection mk pairs
  if failed then (built, none)
  else
    match expErr with
    | some e => if sectionCaught e then (built, none) else (built, some e)
    | none => (built, none)

/-- `ContextManager._init_transforms` (src/cfnlint/context/context.py lines
336-340): a string or list is handed to `Transforms` (whose constructor can
raise, *not* guarded by any `try`); anything else falls back to the empty
registry. -/
def initTransformsCM : JValue → Except String (List String)
  | .str s => mkTransforms (.str s)
  | .arr xs => mkTransforms (.arr xs)
  | _ => .ok []

/-- The indexed symbol tables of a `ContextManager`. -/
structure CMState where
  parameters : List (String × Parameter)
  resources : List (String × Resource)
  transforms : List String
  conditions : List (String × JValue)
deriving Repr

/-- `ContextManager.__post_init__` (src/cfnlint/context/context.py lines
286-302): index parameters, resources, transforms, conditions in that
order; the three entity sections are individually guarded by
`except (ValueError, AttributeError)`, the transform step is not. -/
def contextManagerInit (template : List (String × JValue)) :
    Except String CMState := do
  let (ps, e1) := initSection Parameter.ofJson (getD template "Parameters" (.obj []))
  match e1 with
  | some e => throw e
  | none =>
  let (rs, e2) := initSection Resource.ofJson (getD template "Resources" (.obj []))
  match e2 with
  | some e => throw e
  | none =>
  let ts ← initTransformsCM (getD template "Transform" (.arr []))
  let (cs, e3) := initSection (fun v => Except.ok v) (getD template "Conditions" (.obj []))
  match e3 with
  | some e => throw e
  | none => return ⟨ps, rs, ts, cs⟩

/-- A validation error of the external jsonschema engine, reduced to the
fields this core reads and writes: the message and the rule/validator
identity. -/
structure VError where
  message : String
  validator : String
deriving Repr

/-- The construction state of a `BaseFn` rule
(src/cfnlint/rules/functions/_BaseFn.py lines 20-30): the function's
canonical name, its python-ised name (`ToPy`, external helper, carried as a
given field) and its declared output types. -/
structure BaseFnS where
  fn_name : String
  fn_py : String
  types : List String
deriving Repr

/-- `BaseFn.fix_errors` (src/cfnlint/rules/functions/_BaseFn.py lines
35-39): relabel every error's validator to the function's python name,
except errors whose validator is "ref". -/
def fixErrors (py : String) (errs : List VError) : List VError :=
  errs.map (fun e => if e.validator = "ref" then e else { e with validator := py })

/-- `BaseFn.key_value` (src/cfnlint/rules/functions/_BaseFn.py lines
32-33): `list(instance.keys())[0]` raises `IndexError` (modelled `none`) on
an empty mapping; otherwise the *first* key is returned together with
`instance.get(self.fn.name)` — the value looked up under the function's own
name, which is `None` when absent. -/
def keyValue (fn : BaseFnS) (inst : List (String × JValue)) :
    Option (String × Option JValue) :=
  match inst with
  | [] => none
  | (k, _) :: _ => some (k, inst.lookup fn.fn_name)

/-- The `type` entry of a schema: a scalar or a list of type names. -/
inductive TypeField where
  | one (t : String)
  | many (ts : List String)
deriving Repr

/-- A schema as read by `resolve_type`: an optional direct `type` entry and
an optional `$ref` indirection. -/
structure FnSchema where
  typeField : Option TypeField
  ref : Option String
deriving Repr

/-- Modelled from the spec: `cfnlint.helpers.ensure_list` is imported by
_BaseFn.py but its module is not part of the analysed source; the spec's
step 2 reads a direct `type` field that may be scalar or list, so a scalar
is wrapped into a singleton list. -/
def ensureList : TypeField → List String
  | .one t => [t]
  | .many ts => ts

/-- `BaseFn.resolve_type` (src/cfnlint/rules/functions/_BaseFn.py lines
105-114): read a direct `type` field, else follow `$ref` through the
resolver recursively (fueled; the Python recursion is unbounded), else
report unconstrained (`[]`). -/
def resolveType (resolver : String → FnSchema) : Nat → FnSchema → List String
  | _, ⟨some tf, _⟩ => ensureList tf
  | 0, ⟨none, _⟩ => []
  | f + 1, ⟨none, some r⟩ => resolveType resolver f (resolver r)
  | _ + 1, ⟨none, none⟩ => []

/-- Modelled from the spec: `cfnlint.helpers.is_types_compatible` is
imported by _BaseFn.py but its module is not part of the analysed source;
the spec says only that the function's declared output types are compared
against the schema's declared types and an error is emitted "if
incompatible" — modelled as compatibility iff the two sets intersect. -/
def isTypesCompatible (source dest : List String) : Bool :=
  source.any (fun t => dest.any (fun d => d = t))

/-- `BaseFn.validate_fn_output_types` (src/cfnlint/rules/functions/
_BaseFn.py lines 116-123): if the output schema declares types and they are
incompatible with the function's declared output types, yield exactly one
error `f"{instance!r} is not of type {reprs}"`; the fresh error's validator
is unset (empty) until `fix_errors` relabels it. -/
def validateFnOutputTypes (fn : BaseFnS) (resolver : String → FnSchema)
    (s : FnSchema) (inst : JValue) : List VError :=
  let tS := resolveType resolver FUEL s
  if tS.isEmpty then []
  else if isTypesCompatible fn.types tS then []
  else [⟨reprJ inst ++ " is not of type "
          ++ String.intercalate ", " (tS.map reprQ), ""⟩]

/-- One candidate triple produced by `validator.resolve_value(instance)`
(external engine): the candidate value, the resolution error carried by the
triple if any, and otherwise the raw error list that
`v.descend(value, s, key)` produces for it. -/
structure RCand where
  value : JValue
  resolveErr : Option VError
  descendErrs : List VError

/-- The error rewrite of `BaseFn.resolve`'s final `if return_err:` block
(src/cfnlint/rules/functions/_BaseFn.py lines 85-92): replace the repr of
the last candidate value (the leaked loop variable) by the repr of the
original instance, then append `when '<fn>' is resolved`. -/
def rewriteMsg (e : VError) (lastVal : Option JValue) (inst : JValue)
    (fnName : String) : VError :=
  let m :=
    match lastVal with
    | some v => strReplace e.message (reprJ v) (reprJ inst)
    | none => e.message
  { e with message := m ++ " when " ++ reprQ fnName ++ " is resolved" }

/-- The candidate loop of `BaseFn.resolve`
(src/cfnlint/rules/functions/_BaseFn.py lines 65-92), carrying the
remembered `return_err` and the current loop `value`: a triple with a
resolution error yields it and continues; a candidate whose descend errors
(after `fix_errors`) are empty ends the generator with nothing further; a
failing candidate overwrites the remembered error with its first error;
after exhaustion the remembered error, if any, is yielded rewritten. -/
def resolveAux (fn : BaseFnS) (inst : JValue) :
    List RCand → Option VError → Option JValue → List VError
  | [], ret, lastVal =>
    (match ret with
     | some e => [rewriteMsg e lastVal inst fn.fn_name]
     | none => [])
  | c :: rest, ret, _ =>
    match c.resolveErr with
    | some re => re :: resolveAux fn inst rest ret (some c.value)
    | none =>
      match fixErrors fn.fn_py c.descendErrs with
      | [] => []
      | e :: _ => resolveAux fn inst rest (some e) (some c.value)

/-- `BaseFn.resolve` (src/cfnlint/rules/functions/_BaseFn.py lines 56-92):
`key_value` raises `IndexError` on an empty instance (modelled `none`);
otherwise the candidate loop runs. -/
def fnResolve (fn : BaseFnS) (inst : List (String × JValue))
    (cands : List RCand) : Option (List VError) :=
  match inst with
  | [] => none
  | _ => some (resolveAux fn (.obj inst) cands none none)

/-- `BaseFn.validate` (src/cfnlint/rules/functions/_BaseFn.py lines
125-154): collect the relabelled output-type errors, extract the key/value
pair (raising on an empty instance), collect the relabelled argument
validation errors (`argErrs` stands for the external engine's raw descend
result); if anything was collected, yield exactly those errors and stop;
otherwise delegate to `resolve` over the candidates. -/
def fnValidate (fn : BaseFnS) (resolver : String → FnSchema) (s : FnSchema)
    (inst : List (String × JValue)) (argErrs : List VError)
    (cands : List RCand) : Option (List VError) :=
  let outErrs := fixErrors fn.fn_py (validateFnOutputTypes fn resolver s (.obj inst))
  match inst with
  | [] => none
  | _ =>
    let errs := outErrs ++ fixErrors fn.fn_py argErrs
    if errs.isEmpty then fnResolve fn inst cands
    else some errs

/-- A delegation stub for `fn_find_in_map` that yields nothing. -/
def fimNone : FindInMapDelegate := fun _ => ([], none)

/-- The concrete parent context of the aliasing example: a root `Context`
for region us-east-1 built on an empty store. -/
def c1Parent : Store × CtxS := mkContext ⟨[], []⟩ "us-east-1" ["Resources"] []

/-- Evolving `c1Parent` with a region override and no `ref_values`
override. -/
def c1Child : Store × CtxS :=
  Context.evolve c1Parent.1 c1Parent.2 none none (some "cn-north-1")

section Lemmas

theorem listGetD_append_lt {α : Type} (l l' : List α) (d : α) (n : Nat)
    (h : n < l.length) : (l ++ l').getD n d = l.getD n d := by
  induction l generalizing n with
  | nil => simp at h
  | cons a t ih =>
    cases n with
    | zero => rfl
    | succ m =>
      simp only [List.cons_append, List.getD_cons_succ]
      exact ih m (Nat.lt_of_succ_lt_succ h)

theorem listGetD_append_len {α : Type} (l : List α) (x d : α) :
    (l ++ [x]).getD l.length d = x := by
  induction l with
  | nil => rfl
  | cons a t ih => simp [ih]

theorem listGetD_set_ne {α : Type} (l : List α) (i j : Nat) (x d : α)
    (h : i ≠ j) : (l.set i x).getD j d = l.getD j d := by
  induction l generalizing i j with
  | nil => rfl
  | cons a t ih =>
    cases i with
    | zero =>
      cases j with
      | zero => exact absurd rfl h
      | succ m => rfl
    | succ k =>
      cases j with
      | zero => rfl
      | succ m =>
        simp only [List.set, List.getD_cons_succ]
        exact ih k m (fun he => h (by rw [he]))

theorem listGetD_set_self {α : Type} (l : List α) (i : Nat) (x d : α)
    (h : i < l.length) : (l.set i x).getD i d = x := by
  induction l generalizing i with
  | nil => simp at h
  | cons a t ih =>
    cases i with
    | zero => rfl
    | succ k =>
      simp only [List.set, List.getD_cons_succ]
      exact ih k (Nat.lt_of_succ_lt_succ h)

/-- A section whose raw value is not a mapping raises `AttributeError` at
`.items()`, which the section-level handler catches, leaving the section
empty. -/
theorem initSection_nonObj {α : Type} (mk : JValue → Except String α)
    (sec : JValue) (h : sec.isObj = false) : initSection mk sec = ([], none) := by
  cases sec <;> first
    | rfl
    | simp [JValue.isObj] at h

end Lemmas

/-- C8: for every region string, `_get_partition` maps to "aws-cn" iff the
region is one of the two China regions, to "aws-us-gov" iff it is one of the
two GovCloud regions, and to "aws" otherwise, and the `AWS::URLSuffix`
pseudo value is "amazonaws.com.cn" exactly for the two China regions and
"amazonaws.com" for every other region. -/
theorem C8_partition_urlsuffix (r : String) :
    (getPartition r = "aws-cn" ↔ (r = "cn-north-1" ∨ r = "cn-northwest-1"))
    ∧ (getPartition r = "aws-us-gov" ↔ (r = "us-gov-east-1" ∨ r = "us-gov-west-1"))
    ∧ (getPartition r = "aws"
        ↔ ¬(r = "cn-north-1" ∨ r = "cn-northwest-1"
            ∨ r = "us-gov-east-1" ∨ r = "us-gov-west-1"))
    ∧ (getPseudoValue "AWS::URLSuffix" r = .str "amazonaws.com.cn"
        ↔ (r = "cn-north-1" ∨ r = "cn-northwest-1"))
    ∧ (getPseudoValue "AWS::URLSuffix" r = .str "amazonaws.com"
        ↔ ¬(r = "cn-north-1" ∨ r = "cn-northwest-1")) := by
  have hu : getPseudoValue "AWS::URLSuffix" r
      = if r = "cn-north-1" ∨ r = "cn-northwest-1"
        then JValue.str "amazonaws.com.cn" else JValue.str "amazonaws.com" := rfl
  have hcg : ¬((r = "us-gov-east-1" ∨ r = "us-gov-west-1")
      ∧ (r = "cn-north-1" ∨ r = "cn-northwest-1")) := by
    rintro ⟨hg | hg, hc | hc⟩ <;> subst hg <;> exact absurd hc (by decide)
  rw [hu]
  unfold getPartition
  split_ifs with h1 h2 <;> simp_all

/-- C4 (code evaluated at the failing input): macro expansion of
the single well-formed `Fn::ForEach::Loop` entry binding "Id" over
["A","B"] yields the key *unsubstituted*, twice: the loop
`for id, iteration in values:` iterates the binding dict's keys and
tuple-unpacks the identifier string "Id" into id='I', iteration='d', so the
pattern never matches inside "Resource${Id}". -/
theorem C4_expansion_at_failing_input :
    expandForeach FUEL
      (.obj [("Fn::ForEach::Loop",
        .arr [.str "Id", .arr [.str "A", .str "B"],
              .obj [("Resource${Id}", .obj [("Type", .str "X")])]])]) []
      = ([("Resource${Id}", .obj [("Type", .str "X")]),
          ("Resource${Id}", .obj [("Type", .str "X")])], none) := rfl

/-- C5 (counterexample): `fn_value` on a single-key `Fn::Join` mapping
raises `ValueError("Unsupported value ['a']")` — the message names the
unsupported *value*, and does not name the key `Fn::Join` as the claim
states. -/
theorem C5_counterexample :
    fnValue [] [] fimNone [("Fn::Join", .arr [.str "a"])]
      = ([], some "Unsupported value ['a']")
    ∧ strContains "Unsupported value ['a']" "Fn::Join" = false := ⟨rfl, rfl⟩

/-- C5 (amended): `fn_value` raises a shape error when the mapping does not
have exactly one key; a `{"Ref": name}` with the name absent from both
`ref_values` and `parameters` yields nothing without error; any other
single key raises a value error naming the unsupported *value* (the repr of
the value under the key), not the key. -/
theorem C5_fn_value_amended (rv : List (String × JValue))
    (ps : List (String × Parameter)) (fim : FindInMapDelegate)
    (inst : List (String × JValue)) (k nm : String) (v : JValue) :
    (inst.length ≠ 1 →
      fnValue rv ps fim inst
        = ([], some ("Fn::Value can only have one key, got: "
            ++ reprKeys (inst.map Prod.fst))))
    ∧ (rv.lookup nm = none → ps.lookup nm = none →
      fnValue rv ps fim [("Ref", .str nm)] = ([], none))
    ∧ (k ≠ "Ref" → k ≠ "Fn::FindInMap" →
      fnValue rv ps fim [(k, v)] = ([], some ("Unsupported value " ++ reprJ v))) := by
  refine ⟨?_, ?_, ?_⟩
  · intro h
    match inst with
    | [] => rfl
    | [x] => exact absurd rfl h
    | x :: y :: rest => rfl
  · intro h1 h2
    simp [fnValue, lookupJ, h1, h2]
  · intro h1 h2
    simp [fnValue, h1, h2]

/-- C5 (amended, witness): the three behaviors at concrete inputs. -/
theorem C5_fn_value_amended_witness :
    fnValue [] [] fimNone [] = ([], some "Fn::Value can only have one key, got: []")
    ∧ fnValue [] [] fimNone [("Ref", .str "X")] = ([], none)
    ∧ fnValue [] [] fimNone [("Fn::Sub", .int 3)] = ([], some "Unsupported value 3") := by
  refine ⟨?_, ?_, ?_⟩
  · exact (C5_fn_value_amended [] [] fimNone [] "k" "nm" .null).1 (by decide)
  · exact (C5_fn_value_amended [] [] fimNone [] "k" "X" .null).2.1 rfl rfl
  · exact (C5_fn_value_amended [] [] fimNone [] "Fn::Sub" "nm" (.int 3)).2.2
      (by decide) (by decide)

/-- C9 (counterexample): a parameter constructed with a *present* but falsy
default (the empty string) produces no candidate values at all — the code
guards with truthiness (`if self.default:`), not presence. -/
theorem C9_counterexample :
    Parameter.ofJson (.obj [("Type", .str "String"), ("Default", .str "")])
      = .ok ⟨"String", .str "", .null, .null⟩
    ∧ Parameter.ref ⟨"String", .str "", .null, .null⟩ = ([], none)
    ∧ JValue.str "" ≠ JValue.null :=
  ⟨rfl, rfl, fun h => by cases h⟩

/-- C9 (amended): candidate-value production yields the default value iff
it is present *and truthy*, then each entry of `allowed_values` in declared
order when that field is absent or a list (an empty list yields nothing);
it produces nothing when neither field is present. -/
theorem C9_parameter_ref_amended (p : Parameter) (xs : List JValue) :
    (p.allowed_values = .null ∨ p.allowed_values = .arr xs →
      Parameter.ref p
        = ((if truthyJ p.default then [p.default] else [])
            ++ (match p.allowed_values with | .arr ys => ys | _ => []), none))
    ∧ (p.default = .null → p.allowed_values = .null →
      Parameter.ref p = ([], none)) := by
  constructor
  · intro h
    cases h with
    | inl h => rw [Parameter.ref, h]; simp [truthyJ]
    | inr h =>
      rw [Parameter.ref, h]
      by_cases he : xs.isEmpty
      · simp [truthyJ, he]
        simp at he
        simp [he]
      · simp [truthyJ, he]
  · intro h1 h2
    rw [Parameter.ref, h1, h2]
    simp [truthyJ]

/-- C9 (amended, witness): a truthy default "v" together with allowed
values ["a","b"] yields default first then the allowed values in order. -/
theorem C9_parameter_ref_amended_witness :
    Parameter.ref ⟨"String", .str "v", .arr [.str "a", .str "b"], .null⟩
      = ([.str "v", .str "a", .str "b"], none) := by
  have h := (C9_parameter_ref_amended
    ⟨"String", .str "v", .arr [.str "a", .str "b"], .null⟩
    [.str "a", .str "b"]).1 (Or.inr rfl)
  simpa using h

/-- C10: fully consuming the iterator of `fn_value` on a single-key
`Fn::FindInMap` mapping always raises: either the delegation's own
exception, or — because the branch does not return after delegating — the
fall-through `ValueError("Unsupported value ...")`; consequently `Ref` is
the only key for which `fn_value` can complete without raising. -/
theorem C10_findinmap_falls_through (rv : List (String × JValue))
    (ps : List (String × Parameter)) (fim : FindInMapDelegate) (v : JValue) :
    (fnValue rv ps fim [("Fn::FindInMap", v)]).2.isSome = true
    ∧ ((fim v).2 = none →
      fnValue rv ps fim [("Fn::FindInMap", v)]
        = ((fim v).1, some ("Unsupported value " ++ reprJ v)))
    ∧ (∀ k w, (fnValue rv ps fim [(k, w)]).2 = none → k = "Ref") := by
  refine ⟨?_, ?_, ?_⟩
  · rcases hfv : fim v with ⟨ys, e⟩
    cases e <;> simp [fnValue, hfv]
  · intro h
    rcases hfv : fim v with ⟨ys, e⟩
    rw [hfv] at h
    simp only at h
    subst h
    simp [fnValue, hfv]
  · intro k w h
    by_cases hk : k = "Ref"
    · exact hk
    · by_cases hf : k = "Fn::FindInMap"
      · subst hf
        rcases hfv : fim w with ⟨ys, e⟩
        cases e <;> simp [fnValue, hfv] at h
      · simp [fnValue, hk, hf] at h

/-- C10 (witness): with a delegation yielding one value and no exception,
consuming the iterator still raises the fall-through value error. -/
theorem C10_findinmap_falls_through_witness :
    fnValue [] [] (fun _ => ([.str "m"], none)) [("Fn::FindInMap", .arr [.str "M"])]
      = ([.str "m"], some "Unsupported value ['M']") := by
  have h := (C10_findinmap_falls_through [] [] (fun _ => ([.str "m"], none))
    (.arr [.str "M"])).2.1 rfl
  simpa using h

/-- C6 (counterexample): a `Transform` section that is a list containing a
non-string raises a `ValueError` shape error *out of* `ContextManager`
construction — `_init_transforms` is the one section call not wrapped in a
`try/except`, contradicting the claim that no section failure propagates. -/
theorem C6_counterexample :
    contextManagerInit [("Transform", .arr [.int 1])]
      = .error "Transform must be a string" := rfl

/-- C6 (amended): shape errors are caught at section granularity for the
Parameters, Resources and Conditions sections (leaving the failing section
empty or partially populated, the others indexed from their own sections):
a Resources section that is not a mapping leaves `resources` empty while
`parameters` and `conditions` populate normally.  The Transform section has
no such guard, so a shape error there (a list with a non-string element)
propagates out of construction. -/
theorem C6_sections_amended (pSec rSec cSec : JValue)
    (hr : rSec.isObj = false)
    (hp : (initSection Parameter.ofJson pSec).2 = none)
    (hc : (initSection (fun v => Except.ok v) cSec).2 = none) :
    contextManagerInit
        [("Parameters", pSec), ("Resources", rSec), ("Conditions", cSec)]
      = .ok ⟨(initSection Parameter.ofJson pSec).1, [], [],
             (initSection (fun v => Except.ok v) cSec).1⟩ := by
  have hres := initSection_nonObj Resource.ofJson rSec hr
  rcases h1 : initSection Parameter.ofJson pSec with ⟨ps, e1⟩
  rcases h3 : initSection (fun v => Except.ok v) cSec with ⟨cs, e3⟩
  rw [h1] at hp
  simp only at hp
  subst hp
  rw [h3] at hc
  simp only at hc
  subst hc
  simp [contextManagerInit, getD, List.lookup, h1, h3, hres,
    initTransformsCM, mkTransforms, List.foldlM, Functor.map, Except.map, pure,
    Except.pure, Bind.bind, Except.bind]

/-- C6 (amended, witness): a template with a well-formed parameter, a
non-mapping Resources section and a well-formed condition builds with
`resources` empty and the other two sections populated. -/
theorem C6_sections_amended_witness :
    contextManagerInit
        [("Parameters", .obj [("P", .obj [("Type", .str "String")])]),
         ("Resources", .str "nope"),
         ("Conditions", .obj [("C", .bool true)])]
      = .ok ⟨[("P", ⟨"String", .null, .null, .null⟩)], [], [],
             [("C", .bool true)]⟩ := by
  have h := C6_sections_amended (.obj [("P", .obj [("Type", .str "String")])])
    (.str "nope") (.obj [("C", .bool true)]) rfl rfl rfl
  exact h

/-- C1 (counterexample): evolving a context with a region override and *no*
`ref_values` override rewrites the pseudo-parameter entries inside the
parent's own `ref_values` dict (shared by reference), so the parent's
`AWS::Region` entry changes from us-east-1 to cn-north-1 — refuting the
claim that the child's `ref_values` is a copy and that no later operation
on the child can alter the parent's map. -/
theorem C1_counterexample :
    (c1Parent.1.getMap c1Parent.2.refAddr).lookup "AWS::Region"
      = some (.arr [.str "us-east-1"])
    ∧ (c1Child.1.getMap c1Parent.2.refAddr).lookup "AWS::Region"
      = some (.arr [.str "cn-north-1"]) := ⟨rfl, rfl⟩

/-- C1 (amended): `evolve` never mutates the parent's `path` (the child's
path is a fresh copy with the override appended as one segment), and when a
`ref_values` override is supplied the child gets a fresh copy of the
parent's map merged with the override, leaving the parent's map untouched;
but when no `ref_values` override is supplied the child *shares* the
parent's dict by reference, and the child's construction rewrites the
pseudo-parameter entries in that shared dict (for the child's, possibly
overridden, region) — so evolving with a changed region alters the
parent's `ref_values`. -/
theorem C1_evolve_amended (st : Store) (c : CtxS) (pOv : Option String)
    (rOv : Option (List (String × JValue))) (regOv : Option String)
    (hp : c.pathAddr < st.paths.length) (hm : c.refAddr < st.maps.length) :
    ((Context.evolve st c pOv rOv regOv).1.getPath c.pathAddr
        = st.getPath c.pathAddr)
    ∧ ((Context.evolve st c pOv rOv regOv).1.getPath
          (Context.evolve st c pOv rOv regOv).2.pathAddr
        = st.getPath c.pathAddr ++ pOv.toList)
    ∧ (∀ ov, rOv = some ov →
        (Context.evolve st c pOv rOv regOv).2.refAddr ≠ c.refAddr
        ∧ (Context.evolve st c pOv rOv regOv).1.getMap c.refAddr
            = st.getMap c.refAddr
        ∧ (Context.evolve st c pOv rOv regOv).1.getMap
              (Context.evolve st c pOv rOv regOv).2.refAddr
            = pseudoRefUpdate (updateAll (st.getMap c.refAddr) ov)
                (regOv.getD c.region))
    ∧ (rOv = none →
        (Context.evolve st c pOv rOv regOv).2.refAddr = c.refAddr
        ∧ (Context.evolve st c pOv rOv regOv).1.getMap c.refAddr
            = pseudoRefUpdate (st.getMap c.refAddr) (regOv.getD c.region)) := by
  cases rOv with
  | none =>
    refine ⟨?_, ?_, ?_, ?_⟩
    · simp only [Context.evolve, Store.allocPath, Store.allocMap, Store.setMap,
        Store.getPath, Store.getMap]
      exact listGetD_append_lt st.paths _ [] c.pathAddr hp
    · simp only [Context.evolve, Store.allocPath, Store.allocMap, Store.setMap,
        Store.getPath, Store.getMap]
      cases pOv with
      | none => simp [listGetD_append_len]
      | some seg => simp [listGetD_append_len]
    · intro ov hov
      cases hov
    · intro _
      refine ⟨rfl, ?_⟩
      simp only [Context.evolve, Store.allocPath, Store.allocMap, Store.setMap,
        Store.getPath, Store.getMap]
      exact listGetD_set_self st.maps c.refAddr _ [] hm
  | some ov =>
    refine ⟨?_, ?_, ?_, ?_⟩
    · simp only [Context.evolve, Store.allocPath, Store.allocMap, Store.setMap,
        Store.getPath, Store.getMap]
      exact listGetD_append_lt st.paths _ [] c.pathAddr hp
    · simp only [Context.evolve, Store.allocPath, Store.allocMap, Store.setMap,
        Store.getPath, Store.getMap]
      cases pOv with
      | none => simp [listGetD_append_len]
      | some seg => simp [listGetD_append_len]
    · intro ov' hov
      cases hov
      have hne : st.maps.length ≠ c.refAddr := (Nat.ne_of_lt hm).symm
      refine ⟨hne, ?_, ?_⟩
      · simp only [Context.evolve, Store.allocPath, Store.allocMap, Store.setMap,
          Store.getPath, Store.getMap]
        rw [listGetD_set_ne _ _ _ _ _ hne]
        exact listGetD_append_lt st.maps _ [] c.refAddr hm
      · simp only [Context.evolve, Store.allocPath, Store.allocMap, Store.setMap,
          Store.getPath, Store.getMap]
        rw [listGetD_set_self]
        · rw [listGetD_append_len]
        · simp
    · intro hov
      cases hov

/-- C1 (amended, witness): at the concrete parent, an evolve with a
`ref_values` override leaves the parent's map untouched, while an evolve
with only a region override rewrites the parent's map in place. -/
theorem C1_evolve_amended_witness :
    (Context.evolve c1Parent.1 c1Parent.2 (some "Foo") (some [("X", .int 1)])
        none).1.getMap c1Parent.2.refAddr
      = c1Parent.1.getMap c1Parent.2.refAddr
    ∧ (Context.evolve c1Parent.1 c1Parent.2 none none
        (some "cn-north-1")).1.getMap c1Parent.2.refAddr
      = pseudoRefUpdate (c1Parent.1.getMap c1Parent.2.refAddr) "cn-north-1" := by
  constructor
  · exact ((C1_evolve_amended c1Parent.1 c1Parent.2 (some "Foo")
      (some [("X", .int 1)]) none (by decide) (by decide)).2.2.1
      [("X", .int 1)] rfl).2.1
  · exact ((C1_evolve_amended c1Parent.1 c1Parent.2 none none
      (some "cn-north-1") (by decide) (by decide)).2.2.2 rfl).2

section ResolveLemmas

/-- If no candidate carries a resolution error and some candidate's
relabelled descend errors are empty, the candidate loop ends yielding
nothing, whatever error it had remembered so far. -/
theorem resolveAux_success (fn : BaseFnS) (inst : JValue) :
    ∀ (cands : List RCand) (ret : Option VError) (lv : Option JValue),
    (∀ c ∈ cands, c.resolveErr = none) →
    (∃ c ∈ cands, fixErrors fn.fn_py c.descendErrs = []) →
    resolveAux fn inst cands ret lv = [] := by
  intro cands
  induction cands with
  | nil =>
    intro ret lv _ hex
    simp at hex
  | cons c rest ih =>
    intro ret lv hall hex
    have hc : c.resolveErr = none := hall c (by simp)
    cases hfe : fixErrors fn.fn_py c.descendErrs with
    | nil => simp only [resolveAux, hc, hfe]
    | cons e es =>
      simp only [resolveAux, hc, hfe]
      apply ih
      · intro c' hc'
        exact hall c' (by simp [hc'])
      · rcases hex with ⟨c', hmem, hfe'⟩
        rcases List.mem_cons.1 hmem with rfl | hmem'
        · exact absurd (hfe'.symm.trans hfe) (by simp)
        · exact ⟨c', hmem', hfe'⟩

/-- If no candidate carries a resolution error and every candidate's
relabelled descend errors are non-empty, the loop remembers the last
candidate's first error and yields exactly its rewrite. -/
theorem resolveAux_allfail (fn : BaseFnS) (inst : JValue) :
    ∀ (pre : List RCand) (lc : RCand) (ret : Option VError) (lv : Option JValue)
      (e : VError) (es : List VError),
    (∀ c ∈ pre ++ [lc], c.resolveErr = none) →
    (∀ c ∈ pre, fixErrors fn.fn_py c.descendErrs ≠ []) →
    fixErrors fn.fn_py lc.descendErrs = e :: es →
    resolveAux fn inst (pre ++ [lc]) ret lv
      = [rewriteMsg e (some lc.value) inst fn.fn_name] := by
  intro pre
  induction pre with
  | nil =>
    intro lc ret lv e es hall _ hfe
    have hc : lc.resolveErr = none := hall lc (by simp)
    simp only [List.nil_append, resolveAux, hc, hfe]
  | cons p pre' ih =>
    intro lc ret lv e es hall hfail hfe
    have hp : p.resolveErr = none := hall p (by simp)
    have hfp : fixErrors fn.fn_py p.descendErrs ≠ [] := hfail p (by simp)
    cases hfe' : fixErrors fn.fn_py p.descendErrs with
    | nil => exact absurd hfe' hfp
    | cons ep eps =>
      simp only [List.cons_append, resolveAux, hp, hfe']
      exact ih lc (some ep) (some p.value) e es
        (fun c hc => hall c (by simp at hc ⊢; tauto))
        (fun c hc => hfail c (List.mem_cons_of_mem p hc))
        hfe

end ResolveLemmas

/-- C7 (counterexample): a two-key instance does *not* raise:
`list(instance.keys())[0]` silently takes the first key (the value is
looked up under the function's own name, absent here), and `validate`
completes, producing a result — refuting the claim that any instance
without exactly one key raises at extraction. -/
theorem C7_counterexample :
    keyValue ⟨"Fn::X", "fn_x", ["string"]⟩ [("A", .null), ("B", .null)]
      = some ("A", none)
    ∧ (fnValidate ⟨"Fn::X", "fn_x", ["string"]⟩ (fun _ => ⟨none, none⟩)
        ⟨none, none⟩ [("A", .null), ("B", .null)] [] []).isSome = true :=
  ⟨rfl, rfl⟩

/-- C7 (amended): the key/value extraction raises (an `IndexError`) exactly
when the instance has zero keys, and `validate` then raises too; for one or
more keys it completes silently, returning the *first* key paired with the
value looked up under the function's own name, and `validate` produces a
result. -/
theorem C7_key_value_amended (fn : BaseFnS) (resolver : String → FnSchema)
    (s : FnSchema) (inst : List (String × JValue)) (argErrs : List VError)
    (cands : List RCand) (k : String) (v : JValue)
    (rest : List (String × JValue)) :
    (inst = [] → keyValue fn inst = none
      ∧ fnValidate fn resolver s inst argErrs cands = none)
    ∧ (inst = (k, v) :: rest →
      keyValue fn inst = some (k, inst.lookup fn.fn_name)
      ∧ (fnValidate fn resolver s inst argErrs cands).isSome = true) := by
  constructor
  · rintro rfl
    exact ⟨rfl, rfl⟩
  · rintro rfl
    refine ⟨rfl, ?_⟩
    simp only [fnValidate, fnResolve]
    split <;> simp

/-- C7 (amended, witness): the zero-key raise and the two-key completion at
concrete inputs. -/
theorem C7_key_value_amended_witness :
    fnValidate ⟨"Fn::X", "fn_x", ["string"]⟩ (fun _ => ⟨none, none⟩)
        ⟨none, none⟩ [] [] [] = none
    ∧ keyValue ⟨"Fn::X", "fn_x", ["string"]⟩ [("A", .int 1), ("Fn::X", .int 2)]
        = some ("A", some (.int 2)) := by
  constructor
  · exact ((C7_key_value_amended ⟨"Fn::X", "fn_x", ["string"]⟩
      (fun _ => ⟨none, none⟩) ⟨none, none⟩ [] [] [] "k" .null []).1 rfl).2
  · exact ((C7_key_value_amended ⟨"Fn::X", "fn_x", ["string"]⟩
      (fun _ => ⟨none, none⟩) ⟨none, none⟩ [("A", .int 1), ("Fn::X", .int 2)]
      [] [] "A" (.int 1) [("Fn::X", .int 2)]).2 rfl).1

/-- C3: if the output-type check or the argument validation produced any
error, `validate` yields exactly those errors and never attempts
resolution (the result is independent of the resolution candidates); in
particular a function with declared output types {"string"} validated
against an output schema of type "integer" yields exactly one
type-incompatibility error (relabelled to the function), whatever the
candidates. -/
theorem C3_validate_stops_on_errors (fn : BaseFnS) (resolver : String → FnSchema)
    (s : FnSchema) (inst : List (String × JValue)) (argErrs : List VError)
    (cands cands2 : List RCand) (hne : inst ≠ []) :
    (fixErrors fn.fn_py (validateFnOutputTypes fn resolver s (.obj inst))
        ++ fixErrors fn.fn_py argErrs ≠ [] →
      fnValidate fn resolver s inst argErrs cands
        = some (fixErrors fn.fn_py (validateFnOutputTypes fn resolver s (.obj inst))
            ++ fixErrors fn.fn_py argErrs)
      ∧ fnValidate fn resolver s inst argErrs cands
        = fnValidate fn resolver s inst argErrs cands2)
    ∧ (fn.types = ["string"] → s.typeField = some (.one "integer") → argErrs = [] →
      fnValidate fn resolver s inst argErrs cands
        = some [⟨reprJ (.obj inst) ++ " is not of type "
            ++ String.intercalate ", " (["integer"].map reprQ), fn.fn_py⟩]) := by
  constructor
  · intro h
    have he : (fixErrors fn.fn_py (validateFnOutputTypes fn resolver s (.obj inst))
        ++ fixErrors fn.fn_py argErrs).isEmpty = false := by
      cases hq : fixErrors fn.fn_py (validateFnOutputTypes fn resolver s (.obj inst))
          ++ fixErrors fn.fn_py argErrs with
      | nil => exact absurd hq h
      | cons a b => rfl
    have key : ∀ cs : List RCand,
        fnValidate fn resolver s inst argErrs cs
          = some (fixErrors fn.fn_py (validateFnOutputTypes fn resolver s (.obj inst))
              ++ fixErrors fn.fn_py argErrs) := by
      intro cs
      cases inst with
      | nil => exact absurd rfl hne
      | cons hd tl =>
        simp only [fnValidate, he]
        rfl
    exact ⟨key cands, (key cands).trans (key cands2).symm⟩
  · intro ht hs ha
    subst ha
    obtain ⟨tf, rf⟩ := s
    simp only at hs
    subst hs
    cases inst with
    | nil => exact absurd rfl hne
    | cons hd tl =>
      simp [fnValidate, validateFnOutputTypes, resolveType, ensureList,
        isTypesCompatible, fixErrors, ht]

/-- C3 (witness): the concrete {"string"}-vs-"integer" mismatch yields
exactly the one relabelled error, with and without candidates. -/
theorem C3_validate_stops_on_errors_witness :
    fnValidate ⟨"Fn::Sub", "fn_sub", ["string"]⟩ (fun _ => ⟨none, none⟩)
        ⟨some (.one "integer"), none⟩ [("Fn::Sub", .str "a")] []
        [⟨.str "q", none, []⟩]
      = some [⟨"\x7b'Fn::Sub': 'a'\x7d is not of type 'integer'", "fn_sub"⟩] := by
  have h := (C3_validate_stops_on_errors ⟨"Fn::Sub", "fn_sub", ["string"]⟩
    (fun _ => ⟨none, none⟩) ⟨some (.one "integer"), none⟩
    [("Fn::Sub", .str "a")] [] [⟨.str "q", none, []⟩] []
    (by simp)).2 rfl rfl rfl
  exact h

/-- C2: in `resolve`, candidates are tried in order with OR semantics (in
the absence of per-candidate resolution errors): if some candidate
re-validates cleanly, nothing is yielded — earlier candidates' validation
failures are discarded; if every candidate fails, exactly the last
candidate's first (relabelled) error is yielded, its message rewritten to
replace the repr of that resolved candidate value by the repr of the
original instance, with a trailing clause naming the resolved function. -/
theorem C2_resolve_or_semantics (fn : BaseFnS) (inst : List (String × JValue))
    (cands : List RCand) (hne : inst ≠ [])
    (hnores : ∀ c ∈ cands, c.resolveErr = none) :
    ((∃ c ∈ cands, fixErrors fn.fn_py c.descendErrs = []) →
      fnResolve fn inst cands = some [])
    ∧ (∀ pre lc, cands = pre ++ [lc] →
        (∀ c ∈ cands, fixErrors fn.fn_py c.descendErrs ≠ []) →
        ∀ e es, fixErrors fn.fn_py lc.descendErrs = e :: es →
        fnResolve fn inst cands
          = some [⟨strReplace e.message (reprJ lc.value) (reprJ (.obj inst))
              ++ " when " ++ reprQ fn.fn_name ++ " is resolved",
              e.validator⟩]) := by
  constructor
  · intro hex
    cases inst with
    | nil => exact absurd rfl hne
    | cons hd tl =>
      simp only [fnResolve]
      rw [resolveAux_success fn _ cands none none hnores hex]
  · intro pre lc hsplit hfail e es hfe
    subst hsplit
    cases inst with
    | nil => exact absurd rfl hne
    | cons hd tl =>
      simp only [fnResolve]
      rw [resolveAux_allfail fn _ pre lc none none e es hnores
        (fun c hc => hfail c (List.mem_append_left _ hc)) hfe]
      rfl

/-- C2 (witness): with two candidates where only the second validates
cleanly, nothing is yielded; with two failing candidates, exactly the last
one's error is yielded with the message rewrite and trailing clause. -/
theorem C2_resolve_or_semantics_witness :
    fnResolve ⟨"Fn::GetAtt", "fn_getatt", ["string"]⟩ [("Fn::GetAtt", .str "R.A")]
        [⟨.str "x", none, [⟨"'x' is bad", ""⟩]⟩, ⟨.str "y", none, []⟩]
      = some []
    ∧ fnResolve ⟨"Fn::GetAtt", "fn_getatt", ["string"]⟩ [("Fn::GetAtt", .str "R.A")]
        [⟨.str "x", none, [⟨"'x' is bad", ""⟩]⟩,
         ⟨.str "z", none, [⟨"'z' is bad", ""⟩]⟩]
      = some [⟨"\x7b'Fn::GetAtt': 'R.A'\x7d is bad when 'Fn::GetAtt' is resolved",
              "fn_getatt"⟩] := by
  constructor
  · exact (C2_resolve_or_semantics ⟨"Fn::GetAtt", "fn_getatt", ["string"]⟩
      [("Fn::GetAtt", .str "R.A")]
      [⟨.str "x", none, [⟨"'x' is bad", ""⟩]⟩, ⟨.str "y", none, []⟩]
      (by simp) (by intro c hc; fin_cases hc <;> rfl)).1
      ⟨⟨.str "y", none, []⟩, by simp, rfl⟩
  · exact (C2_resolve_or_semantics ⟨"Fn::GetAtt", "fn_getatt", ["string"]⟩
      [("Fn::GetAtt", .str "R.A")]
      [⟨.str "x", none, [⟨"'x' is bad", ""⟩]⟩,
       ⟨.str "z", none, [⟨"'z' is bad", ""⟩]⟩]
      (by simp) (by intro c hc; fin_cases hc <;> rfl)).2
      [⟨.str "x", none, [⟨"'x' is bad", ""⟩]⟩]
      ⟨.str "z", none, [⟨"'z' is bad", ""⟩]⟩ rfl
      (by intro c hc; fin_cases hc <;> simp [fixErrors])
      ⟨"'z' is bad", "fn_getatt"⟩ [] rfl

end CfnLint
